import Mathlib

/-!
Verification of the CVCT confidential payroll ledger.

The repository has three source files:
* `programs/cvct_payroll/src/lib.rs` — the synchronous encrypted-arithmetic
  program (inco-lightning primitives) plus the payroll scheduler;
* `programs/cvct/src/lib.rs` — the asynchronous queued-computation program
  (Arcium jobs and signed callbacks);
* `encrypted-ixs/src/lib.rs` — the confidential circuits executed off-chain.

Encrypted scalars live in the u128 domain.  The ledger never decrypts them;
this embedding tracks the *decrypted value* of every `Euint128` handle and
gives the external encrypted-compute primitive service its documented
plaintext semantics (add / sub / compare / select over u128, wrapping).
Opaque ciphertext blocks written by Arcium callbacks are tracked as opaque
numbers.  Solana public keys are modelled as naturals.  Every instruction
handler is embedded as a total function that returns its `Result` outcome
together with the ordered list of external calls (CPIs) it performed, so
that call-ordering and call-absence claims are expressible.
-/

/-- Size of the u128 value domain of encrypted scalars. -/
def U128 : Nat := 2 ^ 128

/-- Size of the u64 domain of plaintext instruction amounts. -/
def U64 : Nat := 2 ^ 64

/-- Solana public keys are modelled as naturals. -/
abbrev Pubkey := Nat

/-- Modelled from the spec: `as_euint128` of the external Encrypted-Compute
Primitive Service (§6) — encrypt a plaintext constant into the u128 domain.
We track the decrypted value of the resulting handle. -/
def as_euint128 (v : Nat) : Nat := v % U128

/-- Modelled from the spec: `e_add` of the primitive service — encrypted
addition in the u128 domain (wrapping). -/
def e_add (a b : Nat) : Nat := (a + b) % U128

/-- Modelled from the spec: `e_sub` of the primitive service — encrypted
subtraction in the u128 domain (wrapping). -/
def e_sub (a b : Nat) : Nat := (a + (U128 - b % U128)) % U128

/-- Modelled from the spec: `e_ge` of the primitive service — encrypted
greater-or-equal comparison producing an encrypted boolean. -/
def e_ge (a b : Nat) : Bool := decide (b ≤ a)

/-- Modelled from the spec: `e_select` of the primitive service — oblivious
selection between two encrypted values. -/
def e_select (c : Bool) (a b : Nat) : Nat := if c then a else b

/-- Modelled from the spec: `new_euint128` of the primitive service — import a
caller-supplied ciphertext; we track the u128 value it decrypts to. -/
def new_euint128 (v : Nat) : Nat := v % U128

/-- One external call performed by an instruction handler, in program order:
SPL-token custody transfers, encrypted-compute primitive calls, capability
grants, and Arcium job queuing. -/
inductive Ev where
  | splTransfer (amount : Nat)
  | opAsEuint128 (v : Nat)
  | opEAdd (a b : Nat)
  | opESub (a b : Nat)
  | opEGe (a b : Nat)
  | opESelect (a b : Nat)
  | opNewEuint128 (v : Nat)
  | allowGrant (handle : Nat) (allowed : Pubkey)
  | queueComputation (offset : Nat)
  deriving DecidableEq, Repr

namespace CvctPayroll

/-- `CvctMint` record of the synchronous program; `total_supply` is the
decrypted value of its `Euint128` handle. -/
structure CvctMint where
  authority : Pubkey
  backing_mint : Pubkey
  total_supply : Nat
  decimals : Nat
  deriving DecidableEq, Repr

/-- `CvctAccount` record; `balance` is the decrypted value of its handle. -/
structure CvctAccount where
  owner : Pubkey
  cvct_mint : Pubkey
  balance : Nat
  deriving DecidableEq, Repr

/-- `Vault` record; `total_locked` is the decrypted value of its handle. -/
structure Vault where
  cvct_mint : Pubkey
  backing_mint : Pubkey
  backing_token_account : Pubkey
  total_locked : Nat
  deriving DecidableEq, Repr

/-- `CvctError` enum of the synchronous program. -/
inductive CvctError where
  | InsufficientFunds
  | InvariantViolation
  | InvalidVault
  | Unauthorized
  | ZeroAmount
  | MemberNotActive
  | PayrollNotActive
  | PayrollNotDue
  | MustPauseFirst
  | InvalidAllowanceAccounts
  deriving DecidableEq, Repr

/-- Failure of an instruction: a program error or a failed external CPI
(the SPL token transfer performed by the custody service). -/
inductive TxErr where
  | cvct (e : CvctError)
  | externalCpi
  deriving DecidableEq, Repr

/-- `call_allow_from_remaining`: grant decryption capability on `handle` to
`allowed_pubkey` using the allowance accounts at `account_offset` of
`remaining_accounts` (modelled by its length `remaining_len`). -/
def call_allow_from_remaining (remaining_len : Nat) (handle : Nat)
    (allowed_pubkey : Pubkey) (account_offset : Nat) :
    Except TxErr (List Ev) :=
  if remaining_len < account_offset + 2 then
    .error (.cvct .InvalidAllowanceAccounts)
  else
    .ok [Ev.allowGrant handle allowed_pubkey]

/-- `deposit_and_mint` of the synchronous program.  `splTransferOk` is the
outcome of the external SPL custody transfer (step 1); `remaining_len` is the
number of `remaining_accounts` supplied by the caller. -/
def deposit_and_mint (cvct_mint : CvctMint) (vault : Vault)
    (cvct_account : CvctAccount) (amount : Nat) (splTransferOk : Bool)
    (remaining_len : Nat) :
    Except TxErr (CvctMint × Vault × CvctAccount) × List Ev :=
  -- 1. Transfer backing asset from user to vault (SPL Token transfer)
  if splTransferOk = false then (.error .externalCpi, []) else
  -- 2. Convert plaintext amount to encrypted value
  let encrypted_amount := as_euint128 amount
  -- 3. Update encrypted balances using encrypted addition
  let new_balance := e_add cvct_account.balance encrypted_amount
  let new_supply := e_add cvct_mint.total_supply encrypted_amount
  let new_locked := e_add vault.total_locked encrypted_amount
  let evs := [Ev.splTransfer amount, Ev.opAsEuint128 amount,
    Ev.opEAdd cvct_account.balance encrypted_amount,
    Ev.opEAdd cvct_mint.total_supply encrypted_amount,
    Ev.opEAdd vault.total_locked encrypted_amount]
  let st := ({ cvct_mint with total_supply := new_supply },
    { vault with total_locked := new_locked },
    { cvct_account with balance := new_balance })
  -- 4. Grant allowance to owner for their new balance
  if 2 ≤ remaining_len then
    match call_allow_from_remaining remaining_len new_balance
        cvct_account.owner 0 with
    | .error e => (.error e, evs)
    | .ok aevs => (.ok st, evs ++ aevs)
  else
    (.ok st, evs)

/-- `burn_and_withdraw` of the synchronous program.  The SPL custody transfer
of the full plaintext `amount` out of the vault (step 5) happens *after* the
encrypted mutations; `splTransferOk` is its outcome. -/
def burn_and_withdraw (cvct_mint : CvctMint) (vault : Vault)
    (cvct_account : CvctAccount) (amount : Nat) (splTransferOk : Bool)
    (remaining_len : Nat) :
    Except TxErr (CvctMint × Vault × CvctAccount) × List Ev :=
  -- 1. Convert plaintext amount to encrypted value
  let encrypted_amount := as_euint128 amount
  -- 2. Check if user has sufficient balance (encrypted comparison)
  let has_sufficient := e_ge cvct_account.balance encrypted_amount
  -- 3. Conditionally set burn amount (0 if insufficient)
  let zero_value := as_euint128 0
  let burn_amount := e_select has_sufficient encrypted_amount zero_value
  -- 4. Update encrypted balances using encrypted subtraction
  let new_balance := e_sub cvct_account.balance burn_amount
  let new_supply := e_sub cvct_mint.total_supply burn_amount
  let new_locked := e_sub vault.total_locked burn_amount
  let evs := [Ev.opAsEuint128 amount,
    Ev.opEGe cvct_account.balance encrypted_amount,
    Ev.opAsEuint128 0,
    Ev.opESelect encrypted_amount zero_value,
    Ev.opESub cvct_account.balance burn_amount,
    Ev.opESub cvct_mint.total_supply burn_amount,
    Ev.opESub vault.total_locked burn_amount]
  -- 5. Transfer backing asset from vault to user (full plaintext amount)
  if splTransferOk = false then (.error .externalCpi, evs) else
  let evs := evs ++ [Ev.splTransfer amount]
  let st := ({ cvct_mint with total_supply := new_supply },
    { vault with total_locked := new_locked },
    { cvct_account with balance := new_balance })
  -- 6. Grant allowance to owner for their new balance
  if 2 ≤ remaining_len then
    match call_allow_from_remaining remaining_len new_balance
        cvct_account.owner 0 with
    | .error e => (.error e, evs)
    | .ok aevs => (.ok st, evs ++ aevs)
  else
    (.ok st, evs)

/-- `transfer_cvct` of the synchronous program.  `from_key`/`to_key` are the
addresses of the two account records; `ciphertext_value` is the u128 value the
caller-supplied ciphertext decrypts to. -/
def transfer_cvct (from_cvct_account to_cvct_account : CvctAccount)
    (from_key to_key : Pubkey) (ciphertext_value : Nat)
    (remaining_len : Nat) :
    Except TxErr (CvctAccount × CvctAccount) × List Ev :=
  -- Early return for self-transfer
  if from_key = to_key then (.ok (from_cvct_account, to_cvct_account), []) else
  -- 1. Convert ciphertext to encrypted amount
  let amount := new_euint128 ciphertext_value
  -- 2. Check if sender has sufficient balance (encrypted comparison)
  let has_sufficient := e_ge from_cvct_account.balance amount
  -- 3. Conditionally set transfer amount (0 if insufficient)
  let zero_value := as_euint128 0
  let transfer_amount := e_select has_sufficient amount zero_value
  -- 4. Debit sender using encrypted subtraction
  let new_source_balance := e_sub from_cvct_account.balance transfer_amount
  -- 5. Credit receiver using encrypted addition
  let new_dest_balance := e_add to_cvct_account.balance transfer_amount
  let evs := [Ev.opNewEuint128 ciphertext_value,
    Ev.opEGe from_cvct_account.balance amount,
    Ev.opAsEuint128 0,
    Ev.opESelect amount zero_value,
    Ev.opESub from_cvct_account.balance transfer_amount,
    Ev.opEAdd to_cvct_account.balance transfer_amount]
  let st := ({ from_cvct_account with balance := new_source_balance },
    { to_cvct_account with balance := new_dest_balance })
  -- 6. Grant allowance to source owner for their new balance
  if 2 ≤ remaining_len then
    match call_allow_from_remaining remaining_len new_source_balance
        from_cvct_account.owner 0 with
    | .error e => (.error e, evs)
    | .ok aevs =>
      let evs := evs ++ aevs
      -- 7. Grant allowance to destination owner for their new balance
      if 4 ≤ remaining_len then
        match call_allow_from_remaining remaining_len new_dest_balance
            to_cvct_account.owner 2 with
        | .error e => (.error e, evs)
        | .ok bevs => (.ok st, evs ++ bevs)
      else
        (.ok st, evs)
  else
    (.ok st, evs)

/-- `Organization` record of the payroll component. -/
structure Organization where
  authority : Pubkey
  cvct_mint : Pubkey
  cvct_treasury_vault : Pubkey
  deriving DecidableEq, Repr

/-- `Payroll` record.  `interval` and `last_run` are i64 timestamps,
modelled as integers (theorems stay within the i64 range). -/
structure Payroll where
  org : Pubkey
  interval : Int
  last_run : Int
  active : Bool
  deriving DecidableEq, Repr

/-- `PayrollMember` record; `rate` is CVCT per interval (u64). -/
structure PayrollMember where
  payroll : Pubkey
  cvct_wallet : Pubkey
  rate : Nat
  last_paid : Int
  active : Bool
  deriving DecidableEq, Repr

/-- `create_payroll`: stores the caller-supplied interval with no
validation whatsoever. -/
def create_payroll (org : Pubkey) (interval : Int) : Payroll :=
  { org := org, interval := interval, last_run := 0, active := true }

/-- `add_payroll_member`: registers a member with `last_paid = 0`. -/
def add_payroll_member (payroll : Pubkey) (recipient_cvct_account : Pubkey)
    (rate : Nat) : PayrollMember :=
  { payroll := payroll, cvct_wallet := recipient_cvct_account, rate := rate,
    last_paid := 0, active := true }

/-- Outcome of `run_payroll_for_member`: the updated treasury account, member
account and member record, a program error, or a runtime crash of the Rust
`i64` division (divisor zero, or `i64::MIN / -1`), which panics
unconditionally in Rust. -/
inductive RunPayrollResult where
  | ok (org_treasury member_cvct_account : CvctAccount)
      (member : PayrollMember)
  | err (e : CvctError)
  | crash
  deriving DecidableEq, Repr

/-- `run_payroll_for_member` of the payroll scheduler.  The treasury and
member balances are public on this path and mutated with plain arithmetic
(`u64` multiplication wraps in the release profile; balances live in the u128
domain). -/
def run_payroll_for_member (payroll : Payroll) (member : PayrollMember)
    (org_treasury member_cvct_account : CvctAccount) (now : Int) :
    RunPayrollResult :=
  -- 1. Check payroll is active
  if payroll.active = false then .err .PayrollNotActive else
  -- 2. Check member is active
  if member.active = false then .err .MemberNotActive else
  -- 4. Calculate periods owed since last payment
  let time_elapsed := now - member.last_paid
  let periods_owed_opt : Option Int :=
    if member.last_paid = 0 then
      -- First payment - pay one period
      some 1
    else if payroll.interval = 0 ∨
        (time_elapsed = -(2 ^ 63) ∧ payroll.interval = -1) then
      -- Rust i64 division panics here (no guard in the source)
      none
    else
      some (time_elapsed.tdiv payroll.interval)
  match periods_owed_opt with
  | none => .crash
  | some periods_owed =>
    -- 5. Check if payment is due
    if periods_owed ≤ 0 then .err .PayrollNotDue else
    -- 6. Calculate total owed (u64 multiply, `periods_owed as u64`)
    let amount_owed := member.rate * periods_owed.toNat % U64
    -- 7. Check treasury has sufficient funds
    if org_treasury.balance < amount_owed then .err .InsufficientFunds else
    -- 8. Transfer CVCT from treasury to member; 9. update last_paid
    .ok { org_treasury with balance := org_treasury.balance - amount_owed }
      { member_cvct_account with
        balance := (member_cvct_account.balance + amount_owed) % U128 }
      { member with last_paid := now }

end CvctPayroll

namespace circuits

/-- Wrapping u128 addition of the MPC circuits. -/
def add128 (a b : Nat) : Nat := (a + b) % U128

/-- Wrapping u128 subtraction of the MPC circuits. -/
def sub128 (a b : Nat) : Nat := (a + (U128 - b % U128)) % U128

/-- `deposit_and_mint` circuit of `encrypted-ixs`: add the plaintext deposit
amount to encrypted balance, supply, and locked totals.  The encryption
contexts (`Shared` arguments) only affect ciphertext bytes, never the
decrypted values tracked here; outputs are (new_balance, new_total_supply,
new_total_locked). -/
def deposit_and_mint (balance amount total_supply total_locked : Nat) :
    Nat × Nat × Nat :=
  let new_balance := add128 balance amount
  let new_total_supply := add128 total_supply amount
  let new_total_locked := add128 total_locked amount
  (new_balance, new_total_supply, new_total_locked)

/-- `burn_and_withdraw` circuit of `encrypted-ixs`: both branches execute in
MPC, one is selected.  Outputs are (new_balance, new_supply, new_locked,
revealed ok flag, plaintext amount). -/
def burn_and_withdraw (balance amount total_supply total_locked : Nat) :
    Nat × Nat × Nat × Bool × Nat :=
  let bal := balance
  let ok := decide (amount ≤ bal)
  let new_balance := if ok then sub128 bal amount else bal
  let supply := total_supply
  let new_supply := if ok then sub128 supply amount else supply
  let locked := total_locked
  let new_locked := if ok then sub128 locked amount else locked
  (new_balance, new_supply, new_locked, ok, amount)

end circuits

namespace Cvct

/-- `CvctMint` record of the asynchronous program.  `total_supply` is the
opaque ciphertext block (tracked as an opaque number), written only by a
verified callback together with its nonce. -/
structure CvctMint where
  authority : Pubkey
  backing_mint : Pubkey
  authority_enc_pubkey : Nat
  total_supply : Nat
  total_supply_nonce : Nat
  decimals : Nat
  deriving DecidableEq, Repr

/-- `Vault` record of the asynchronous program. -/
structure Vault where
  cvct_mint : Pubkey
  backing_mint : Pubkey
  backing_token_account : Pubkey
  total_locked : Nat
  total_locked_nonce : Nat
  deriving DecidableEq, Repr

/-- `CvctAccount` record of the asynchronous program. -/
structure CvctAccount where
  owner : Pubkey
  cvct_mint : Pubkey
  owner_enc_pubkey : Nat
  balance : Nat
  balance_nonce : Nat
  deriving DecidableEq, Repr

/-- `ErrorCode` enum of the asynchronous program. -/
inductive ErrorCode where
  | AbortedComputation
  | ClusterNotSet
  | Unauthorized
  | InvalidVault
  | ZeroAmount
  deriving DecidableEq, Repr

/-- Failure of an instruction of the asynchronous program: a program error
or a failed external CPI (the SPL custody transfer). -/
inductive TxErr where
  | code (e : ErrorCode)
  | externalCpi
  deriving DecidableEq, Repr

/-- Modelled from the spec: status of a `ComputationJob` in the Arcium
cluster scope (§3 lifecycle, §4.3).  Only the statuses the callback
verification discriminates on are modelled: no job, a still-pending queued
job, and an already-committed (verified) job. -/
inductive JobStatus where
  | absent
  | queued
  | verified
  deriving DecidableEq, Repr

/-- Modelled from the spec: the computation-job table of the executing
cluster's scope, indexed by job id (computation offset). -/
structure CompEnv where
  jobs : Nat → JobStatus

/-- Mark job `j` as committed (one-shot consumption, §4.3 replay
protection). -/
def consume (env : CompEnv) (j : Nat) : CompEnv :=
  ⟨fun i => if i = j then .verified else env.jobs i⟩

/-- One encrypted u128 output of a circuit: ciphertext block plus the fresh
nonce it is encrypted under. -/
structure EncOutput where
  ciphertexts : Nat
  nonce : Nat
  deriving DecidableEq, Repr

/-- Modelled from the spec: `SignedComputationOutputs` — the callback payload:
the job id the aggregate signature is bound to, whether that signature
validates against the cluster's verification key, and the output values. -/
structure SignedComputationOutputs (α : Type) where
  job_id : Nat
  sig_valid : Bool
  value : α
  deriving DecidableEq, Repr

/-- Modelled from the spec: `verify_output` of the Arcium client library
(§4.3, all-or-nothing): (1) the signature must validate, (2) the signed job
id must match a still-pending queued job, (3) the job must not already be
committed; on success the job is consumed one-shot and the outputs are
released. -/
def verify_output {α : Type} (env : CompEnv)
    (out : SignedComputationOutputs α) : Except Unit (α × CompEnv) :=
  if out.sig_valid = false then .error () else
  match env.jobs out.job_id with
  | .queued => .ok (out.value, consume env out.job_id)
  | _ => .error ()

/-- `init_mint_state_callback`: verify the Arcium output, then persist the
encrypted totals and nonces; any verification failure rejects with
`AbortedComputation` before any field is written. -/
def init_mint_state_callback (env : CompEnv) (cvct_mint : CvctMint)
    (vault : Vault)
    (output : SignedComputationOutputs (EncOutput × EncOutput)) :
    Except ErrorCode (CompEnv × CvctMint × Vault) :=
  match verify_output env output with
  | .error _ => .error .AbortedComputation
  | .ok ((total_supply, total_locked), env2) =>
    .ok (env2,
      { cvct_mint with
        total_supply := total_supply.ciphertexts,
        total_supply_nonce := total_supply.nonce },
      { vault with
        total_locked := total_locked.ciphertexts,
        total_locked_nonce := total_locked.nonce })

/-- `init_account_state_callback`: verify, then persist the encrypted zero
balance and its nonce. -/
def init_account_state_callback (env : CompEnv) (cvct_account : CvctAccount)
    (output : SignedComputationOutputs EncOutput) :
    Except ErrorCode (CompEnv × CvctAccount) :=
  match verify_output env output with
  | .error _ => .error .AbortedComputation
  | .ok (balance, env2) =>
    .ok (env2,
      { cvct_account with
        balance := balance.ciphertexts,
        balance_nonce := balance.nonce })

/-- `deposit_and_mint_callback`: verify, then persist the three encrypted
outputs (balance, total supply, total locked) and their nonces. -/
def deposit_and_mint_callback (env : CompEnv) (cvct_account : CvctAccount)
    (cvct_mint : CvctMint) (vault : Vault)
    (output : SignedComputationOutputs (EncOutput × EncOutput × EncOutput)) :
    Except ErrorCode (CompEnv × CvctAccount × CvctMint × Vault) :=
  match verify_output env output with
  | .error _ => .error .AbortedComputation
  | .ok ((balance, total_supply, total_locked), env2) =>
    .ok (env2,
      { cvct_account with
        balance := balance.ciphertexts,
        balance_nonce := balance.nonce },
      { cvct_mint with
        total_supply := total_supply.ciphertexts,
        total_supply_nonce := total_supply.nonce },
      { vault with
        total_locked := total_locked.ciphertexts,
        total_locked_nonce := total_locked.nonce })

/-- `deposit_and_mint` of the asynchronous program: reject a zero amount,
perform the SPL custody transfer into the vault, then build the Arcium args
and queue the confidential computation.  The instruction itself never touches
the encrypted fields; only the registered callback may.  `splTransferOk` is
the outcome of the external custody transfer. -/
def deposit_and_mint (env : CompEnv) (computation_offset : Nat)
    (amount : Nat) (splTransferOk : Bool) :
    Except TxErr CompEnv × List Ev :=
  -- require!(amount > 0, ErrorCode::ZeroAmount)
  if amount = 0 then (.error (.code .ZeroAmount), []) else
  -- 1) Transfer backing tokens into the vault.
  if splTransferOk = false then (.error .externalCpi, []) else
  -- 2) Build Arcium args and queue the computation with its callback.
  (.ok ⟨fun j => if j = computation_offset then .queued else env.jobs j⟩,
    [Ev.splTransfer amount, Ev.queueComputation computation_offset])

end Cvct


namespace CvctPayroll

/-- Whole-ledger state: the mint, its unique vault, and the CVCT accounts of
that mint indexed by record address. -/
structure Ledger where
  mint : CvctMint
  vault : Vault
  accounts : Pubkey → CvctAccount

/-- One committed mutating ledger operation.  `deposit`/`withdraw` commit the
synchronous program's `deposit_and_mint`/`burn_and_withdraw` on account `k`;
`commitDeposit`/`commitWithdraw` commit a verified callback of the
corresponding confidential circuit (spec §4.3 commit), applied to the current
decrypted values — i.e. jobs serialized per record, which is the regime the
supply/locked invariant is claimed for. -/
inductive LOp where
  | deposit (k : Pubkey) (amount : Nat) (splOk : Bool) (remaining_len : Nat)
  | withdraw (k : Pubkey) (amount : Nat) (splOk : Bool) (remaining_len : Nat)
  | commitDeposit (k : Pubkey) (amount : Nat)
  | commitWithdraw (k : Pubkey) (amount : Nat)

/-- Apply one operation to the ledger; a failed instruction reverts, leaving
the ledger unchanged (host transactions commit atomically). -/
def lstep (s : Ledger) (op : LOp) : Ledger :=
  match op with
  | .deposit k amount splOk rlen =>
    match (deposit_and_mint s.mint s.vault (s.accounts k) amount splOk rlen).1 with
    | .ok (m, v, a) =>
      { mint := m, vault := v,
        accounts := fun j => if j = k then a else s.accounts j }
    | .error _ => s
  | .withdraw k amount splOk rlen =>
    match (burn_and_withdraw s.mint s.vault (s.accounts k) amount splOk rlen).1 with
    | .ok (m, v, a) =>
      { mint := m, vault := v,
        accounts := fun j => if j = k then a else s.accounts j }
    | .error _ => s
  | .commitDeposit k amount =>
    let r := circuits.deposit_and_mint (s.accounts k).balance amount
      s.mint.total_supply s.vault.total_locked
    { mint := { s.mint with total_supply := r.2.1 },
      vault := { s.vault with total_locked := r.2.2 },
      accounts := fun j => if j = k then
        { s.accounts j with balance := r.1 } else s.accounts j }
  | .commitWithdraw k amount =>
    let r := circuits.burn_and_withdraw (s.accounts k).balance amount
      s.mint.total_supply s.vault.total_locked
    { mint := { s.mint with total_supply := r.2.1 },
      vault := { s.vault with total_locked := r.2.2.1 },
      accounts := fun j => if j = k then
        { s.accounts j with balance := r.1 } else s.accounts j }

/-- Run a sequence of committed operations. -/
def lrun (s : Ledger) (ops : List LOp) : Ledger := ops.foldl lstep s

/-- The initialized ledger: every encrypted scalar starts as encrypted zero
(`init_mint_state` / `init_account_state` / `initialize_cvct_*`); the public
metadata is irrelevant to the tracked values and fixed to zero keys. -/
def linit : Ledger :=
  { mint :=
      { authority := 0
        backing_mint := 0
        total_supply := as_euint128 0
        decimals := 0 }
    vault :=
      { cvct_mint := 0
        backing_mint := 0
        backing_token_account := 0
        total_locked := as_euint128 0 }
    accounts := fun k =>
      { owner := k
        cvct_mint := 0
        balance := as_euint128 0 } }

/-- `transfer_cvct` applied at the ledger level: the instruction's account
context marks only the two `CvctAccount` records writable (the mint is
read-only and no vault account is passed), so the ledger's mint and vault
records are carried through untouched; a failed instruction reverts. -/
def transfer_on_ledger (s : Ledger) (from_key to_key : Pubkey)
    (ciphertext_value : Nat) (remaining_len : Nat) : Ledger :=
  match (transfer_cvct (s.accounts from_key) (s.accounts to_key)
      from_key to_key ciphertext_value remaining_len).1 with
  | .ok (fa, ta) =>
    { s with accounts := fun j =>
        if j = from_key then fa else if j = to_key then ta else s.accounts j }
  | .error _ => s

end CvctPayroll

theorem U128_pos : 0 < U128 := by norm_num [U128]

theorem as_euint128_of_lt {v : Nat} (h : v < U128) : as_euint128 v = v :=
  Nat.mod_eq_of_lt h

theorem e_sub_zero {a : Nat} (h : a < U128) : e_sub a 0 = a := by
  unfold e_sub
  rw [Nat.zero_mod, Nat.sub_zero, Nat.add_mod_right, Nat.mod_eq_of_lt h]

theorem e_sub_lt (a b : Nat) : e_sub a b < U128 :=
  Nat.mod_lt _ U128_pos

theorem e_add_lt (a b : Nat) : e_add a b < U128 :=
  Nat.mod_lt _ U128_pos

namespace CvctPayroll

/-- `C8`: a transfer whose source and destination resolve to the same record
(equal account addresses) returns success immediately: both account records
are returned unchanged and the list of external calls is empty — no encrypted
primitive, no capability grant, nothing. -/
theorem C8_self_transfer_is_noop_without_calls
    (from_cvct_account to_cvct_account : CvctAccount) (k : Pubkey)
    (ciphertext_value remaining_len : Nat) :
    transfer_cvct from_cvct_account to_cvct_account k k ciphertext_value
        remaining_len
      = (.ok (from_cvct_account, to_cvct_account), []) := by
  unfold transfer_cvct
  simp

end CvctPayroll

namespace CvctPayroll

/-- `C3`: withdrawing `amount > balance` on the oblivious path succeeds with
no error, and the decrypted balance, total supply and total locked are all
exactly their pre-state values (the select yields an effective burn amount of
0); likewise the `burn_and_withdraw` circuit leaves all three values
unchanged and reveals `ok = false`. -/
theorem C3_oblivious_insufficient_withdraw_unchanged
    (cvct_mint : CvctMint) (vault : Vault) (cvct_account : CvctAccount)
    (amount remaining_len : Nat)
    (hb : cvct_account.balance < U128) (hs : cvct_mint.total_supply < U128)
    (hl : vault.total_locked < U128) (hamt : amount < U64)
    (hgt : cvct_account.balance < amount) :
    (burn_and_withdraw cvct_mint vault cvct_account amount true
        remaining_len).1 = .ok (cvct_mint, vault, cvct_account) ∧
    circuits.burn_and_withdraw cvct_account.balance amount
        cvct_mint.total_supply vault.total_locked
      = (cvct_account.balance, cvct_mint.total_supply, vault.total_locked,
         false, amount) := by
  have hamt128 : amount < U128 := lt_trans hamt (by norm_num [U64, U128])
  have hge : e_ge cvct_account.balance (as_euint128 amount) = false := by
    simp [e_ge, as_euint128_of_lt hamt128]
    omega
  have hzero : as_euint128 0 = 0 := by simp [as_euint128]
  constructor
  · unfold burn_and_withdraw
    simp only [hge, hzero, e_select, Bool.false_eq_true, Bool.true_eq_false,
      if_false]
    rw [e_sub_zero hb, e_sub_zero hs, e_sub_zero hl]
    split
    · next hr =>
      have hca : call_allow_from_remaining remaining_len
          cvct_account.balance cvct_account.owner 0
          = .ok [Ev.allowGrant cvct_account.balance cvct_account.owner] := by
        unfold call_allow_from_remaining
        rw [if_neg (by omega)]
      rw [hca]
    · rfl
  · have hok : ¬ (amount ≤ cvct_account.balance) := by omega
    simp [circuits.burn_and_withdraw, hok]

end CvctPayroll

namespace CvctPayroll

/-- Sample mint record used to instantiate theorems with hypotheses. -/
def exMint : CvctMint :=
  { authority := 1, backing_mint := 2, total_supply := 50, decimals := 6 }

/-- Sample vault record. -/
def exVault : Vault :=
  { cvct_mint := 3, backing_mint := 2, backing_token_account := 4,
    total_locked := 50 }

/-- Sample account record. -/
def exAcct : CvctAccount :=
  { owner := 5, cvct_mint := 3, balance := 10 }

/-- Witness for `C3`: a concrete over-withdrawal (20 from a balance of 10)
succeeds and changes nothing. -/
theorem C3_witness :
    (exAcct.balance < U128 ∧ exMint.total_supply < U128 ∧
      exVault.total_locked < U128 ∧ 20 < U64 ∧ exAcct.balance < 20) ∧
    ((burn_and_withdraw exMint exVault exAcct 20 true 2).1
        = .ok (exMint, exVault, exAcct) ∧
      circuits.burn_and_withdraw exAcct.balance 20 exMint.total_supply
          exVault.total_locked
        = (exAcct.balance, exMint.total_supply, exVault.total_locked,
           false, 20)) :=
  ⟨by decide,
   C3_oblivious_insufficient_withdraw_unchanged exMint exVault exAcct 20 2
     (by decide) (by decide) (by decide) (by decide) (by decide)⟩

/-- A committed synchronous deposit adds the same encrypted amount to
balance, supply and locked. -/
theorem deposit_and_mint_ok_totals {m : CvctMint} {v : Vault}
    {a : CvctAccount} {amount : Nat} {splOk : Bool} {rlen : Nat}
    {m2 : CvctMint} {v2 : Vault} {a2 : CvctAccount}
    (hE : (deposit_and_mint m v a amount splOk rlen).1 = .ok (m2, v2, a2)) :
    m2.total_supply = e_add m.total_supply (as_euint128 amount) ∧
    v2.total_locked = e_add v.total_locked (as_euint128 amount) ∧
    a2.balance = e_add a.balance (as_euint128 amount) := by
  unfold deposit_and_mint call_allow_from_remaining at hE
  split at hE
  · simp at hE
  · split at hE
    · split at hE
      · simp at hE
      · simp only [Prod.fst, Except.ok.injEq, Prod.mk.injEq] at hE
        obtain ⟨hm, hv, ha⟩ := hE
        subst hm hv ha
        exact ⟨rfl, rfl, rfl⟩
    · simp only [Prod.fst, Except.ok.injEq, Prod.mk.injEq] at hE
      obtain ⟨hm, hv, ha⟩ := hE
      subst hm hv ha
      exact ⟨rfl, rfl, rfl⟩

/-- A committed synchronous withdrawal subtracts one common effective burn
amount from balance, supply and locked. -/
theorem burn_and_withdraw_ok_totals {m : CvctMint} {v : Vault}
    {a : CvctAccount} {amount : Nat} {splOk : Bool} {rlen : Nat}
    {m2 : CvctMint} {v2 : Vault} {a2 : CvctAccount}
    (hE : (burn_and_withdraw m v a amount splOk rlen).1 = .ok (m2, v2, a2)) :
    ∃ d, m2.total_supply = e_sub m.total_supply d ∧
      v2.total_locked = e_sub v.total_locked d ∧
      a2.balance = e_sub a.balance d := by
  unfold burn_and_withdraw call_allow_from_remaining at hE
  split at hE
  · simp at hE
  · split at hE
    · split at hE
      · simp at hE
      · simp only [Prod.fst, Except.ok.injEq, Prod.mk.injEq] at hE
        obtain ⟨hm, hv, ha⟩ := hE
        subst hm hv ha
        exact ⟨_, rfl, rfl, rfl⟩
    · simp only [Prod.fst, Except.ok.injEq, Prod.mk.injEq] at hE
      obtain ⟨hm, hv, ha⟩ := hE
      subst hm hv ha
      exact ⟨_, rfl, rfl, rfl⟩

/-- Every single committed operation preserves equality of the decrypted
total supply and total locked. -/
theorem lstep_preserves_supply_locked (s : Ledger) (op : LOp)
    (h : s.mint.total_supply = s.vault.total_locked) :
    (lstep s op).mint.total_supply = (lstep s op).vault.total_locked := by
  cases op with
  | deposit k amount splOk rlen =>
    simp only [lstep]
    cases hE : (deposit_and_mint s.mint s.vault (s.accounts k) amount splOk
        rlen).1 with
    | error e => exact h
    | ok st =>
      obtain ⟨m2, v2, a2⟩ := st
      obtain ⟨hm, hv, -⟩ := deposit_and_mint_ok_totals hE
      simp [hm, hv, h]
  | withdraw k amount splOk rlen =>
    simp only [lstep]
    cases hE : (burn_and_withdraw s.mint s.vault (s.accounts k) amount splOk
        rlen).1 with
    | error e => exact h
    | ok st =>
      obtain ⟨m2, v2, a2⟩ := st
      obtain ⟨d, hm, hv, -⟩ := burn_and_withdraw_ok_totals hE
      simp [hm, hv, h]
  | commitDeposit k amount =>
    simp only [lstep, circuits.deposit_and_mint]
    simp [h]
  | commitWithdraw k amount =>
    simp only [lstep, circuits.burn_and_withdraw]
    simp [h]

/-- `C1`: starting from the initialized ledger (all encrypted scalars are
encrypted zero), after any sequence of committed deposits and withdrawals —
synchronous instructions or committed circuit callbacks — the decrypted mint
`total_supply` equals the decrypted vault `total_locked`; since the sequence
is arbitrary, the invariant holds at every commit. -/
theorem C1_supply_equals_locked_after_any_sequence (ops : List LOp) :
    (lrun linit ops).mint.total_supply = (lrun linit ops).vault.total_locked := by
  suffices h : ∀ s : Ledger, s.mint.total_supply = s.vault.total_locked →
      (lrun s ops).mint.total_supply = (lrun s ops).vault.total_locked by
    exact h linit rfl
  induction ops with
  | nil => intro s h; exact h
  | cons op rest ih =>
    intro s h
    exact ih (lstep s op) (lstep_preserves_supply_locked s op h)

end CvctPayroll

theorem as_euint128_lt (v : Nat) : as_euint128 v < U128 :=
  Nat.mod_lt _ U128_pos

theorem new_euint128_lt (v : Nat) : new_euint128 v < U128 :=
  Nat.mod_lt _ U128_pos

theorem e_select_lt {c : Bool} {a b : Nat} (ha : a < U128) (hb : b < U128) :
    e_select c a b < U128 := by
  unfold e_select
  split
  · exact ha
  · exact hb

/-- The effective amount `select(balance ≥ amount, amount, 0)` never exceeds
the balance it was compared against. -/
theorem effective_le (bal amt : Nat) :
    e_select (e_ge bal amt) amt (as_euint128 0) ≤ bal := by
  unfold e_select e_ge as_euint128
  split
  · next hc => exact of_decide_eq_true hc
  · simp

namespace CvctPayroll

/-- A transfer between distinct records always succeeds, returning the source
debited and the destination credited by the one evaluated effective amount. -/
theorem transfer_cvct_ok (fa ta : CvctAccount) (fk tk : Pubkey)
    (ctv rlen : Nat) (hne : fk ≠ tk) :
    (transfer_cvct fa ta fk tk ctv rlen).1
      = .ok ({ fa with
               balance := e_sub fa.balance
                 (e_select (e_ge fa.balance (new_euint128 ctv))
                   (new_euint128 ctv) (as_euint128 0)) },
             { ta with
               balance := e_add ta.balance
                 (e_select (e_ge fa.balance (new_euint128 ctv))
                   (new_euint128 ctv) (as_euint128 0)) }) := by
  by_cases hr2 : 2 ≤ rlen
  · by_cases hr4 : 4 ≤ rlen
    · have ha : ¬ (rlen < 0 + 2) := by omega
      have hb : ¬ (rlen < 2 + 2) := by omega
      simp [transfer_cvct, call_allow_from_remaining, hne, hr2, hr4, ha, hb]
    · have ha : ¬ (rlen < 0 + 2) := by omega
      simp [transfer_cvct, call_allow_from_remaining, hne, hr2, hr4, ha]
  · have h4 : ¬ (4 ≤ rlen) := by omega
    simp [transfer_cvct, call_allow_from_remaining, hne, hr2, h4]

/-- `C4`: a transfer between two distinct account records debits the source
and credits the destination with one single evaluated effective amount
`t = select(balance ≥ amount, amount, 0)`; `t` never exceeds the source
balance; the sum of the two decrypted balances is unchanged in the u128
domain (and exactly, absent destination overflow); and the ledger's mint and
vault records are untouched by the instruction. -/
theorem C4_transfer_conserves_pair_sum (s : Ledger)
    (from_cvct_account to_cvct_account : CvctAccount)
    (from_key to_key : Pubkey) (ciphertext_value remaining_len : Nat)
    (hne : from_key ≠ to_key) :
    let t := e_select (e_ge from_cvct_account.balance
        (new_euint128 ciphertext_value))
      (new_euint128 ciphertext_value) (as_euint128 0)
    (transfer_cvct from_cvct_account to_cvct_account from_key to_key
        ciphertext_value remaining_len).1
      = .ok ({ from_cvct_account with
                balance := e_sub from_cvct_account.balance t },
             { to_cvct_account with
                balance := e_add to_cvct_account.balance t }) ∧
    t ≤ from_cvct_account.balance ∧
    (e_sub from_cvct_account.balance t + e_add to_cvct_account.balance t)
        % U128
      = (from_cvct_account.balance + to_cvct_account.balance) % U128 ∧
    (from_cvct_account.balance < U128 →
      to_cvct_account.balance + t < U128 →
      e_sub from_cvct_account.balance t + e_add to_cvct_account.balance t
        = from_cvct_account.balance + to_cvct_account.balance) ∧
    (transfer_on_ledger s from_key to_key ciphertext_value
        remaining_len).mint = s.mint ∧
    (transfer_on_ledger s from_key to_key ciphertext_value
        remaining_len).vault = s.vault := by
  intro t
  have htlt : t < U128 :=
    e_select_lt (new_euint128_lt ciphertext_value) (as_euint128_lt 0)
  have htle : t ≤ from_cvct_account.balance :=
    effective_le from_cvct_account.balance (new_euint128 ciphertext_value)
  refine ⟨?_, htle, ?_, ?_, ?_, ?_⟩
  · exact transfer_cvct_ok from_cvct_account to_cvct_account from_key to_key
      ciphertext_value remaining_len hne
  · unfold e_sub e_add
    have hmod : t % U128 = t := Nat.mod_eq_of_lt htlt
    rw [hmod, ← Nat.add_mod]
    have hsum : from_cvct_account.balance + (U128 - t)
        + (to_cvct_account.balance + t)
        = from_cvct_account.balance + to_cvct_account.balance + U128 := by
      omega
    rw [hsum, Nat.add_mod_right]
  · intro hfb hob
    unfold e_sub e_add
    have hmod : t % U128 = t := Nat.mod_eq_of_lt htlt
    rw [hmod]
    have h1 : (from_cvct_account.balance + (U128 - t)) % U128
        = from_cvct_account.balance - t := by
      have hx : from_cvct_account.balance + (U128 - t)
          = (from_cvct_account.balance - t) + U128 := by omega
      rw [hx, Nat.add_mod_right, Nat.mod_eq_of_lt (by omega)]
    have h2 : (to_cvct_account.balance + t) % U128
        = to_cvct_account.balance + t := Nat.mod_eq_of_lt hob
    rw [h1, h2]
    omega
  · unfold transfer_on_ledger
    split <;> rfl
  · unfold transfer_on_ledger
    split <;> rfl

end CvctPayroll

namespace CvctPayroll

/-- Second sample account record (distinct owner and address). -/
def exAcct2 : CvctAccount :=
  { owner := 6, cvct_mint := 3, balance := 5 }

/-- Witness for `C4`: a concrete transfer of 4 from a balance of 10 to a
balance of 5 yields balances 6 and 9. -/
theorem C4_witness :
    (transfer_cvct exAcct exAcct2 5 6 4 4).1
      = .ok ({ owner := 5, cvct_mint := 3, balance := 6 },
             { owner := 6, cvct_mint := 3, balance := 9 }) :=
  (C4_transfer_conserves_pair_sum linit exAcct exAcct2 5 6 4 4
    (by decide)).1

/-- Counterexample for `C5`: a successful balance-mutating deposit issued
with no remaining accounts performs no capability-grant call at all — the
complete external-call list contains no `allowGrant` — yet the instruction
succeeds, so the grant is not a mandatory post-condition. -/
theorem C5_counterexample_deposit_without_grant :
    deposit_and_mint exMint exVault exAcct 7 true 0
      = (.ok ({ exMint with total_supply := 57 },
              { exVault with total_locked := 57 },
              { exAcct with balance := 17 }),
         [.splTransfer 7, .opAsEuint128 7, .opEAdd 10 7, .opEAdd 50 7,
          .opEAdd 50 7]) := by
  rfl

/-- Amended `C5`: whenever the caller supplies the allowance accounts
(at least 2 remaining accounts; at least 4 for a transfer's destination
grant), each successful balance mutation issues an `allow` call granting the
newly produced balance handle to the owning identity — for a transfer, to
the source owner and (given 4 accounts) the destination owner.  With fewer
remaining accounts the operation succeeds without any grant. -/
theorem C5_grant_issued_when_accounts_supplied (cvct_mint : CvctMint)
    (vault : Vault) (acct fa ta : CvctAccount) (amount ctv : Nat)
    (fk tk : Pubkey) (rlen : Nat) (h2 : 2 ≤ rlen) (hne : fk ≠ tk) :
    Ev.allowGrant (e_add acct.balance (as_euint128 amount)) acct.owner
      ∈ (deposit_and_mint cvct_mint vault acct amount true rlen).2 ∧
    Ev.allowGrant (e_sub acct.balance
        (e_select (e_ge acct.balance (as_euint128 amount))
          (as_euint128 amount) (as_euint128 0))) acct.owner
      ∈ (burn_and_withdraw cvct_mint vault acct amount true rlen).2 ∧
    Ev.allowGrant (e_sub fa.balance
        (e_select (e_ge fa.balance (new_euint128 ctv))
          (new_euint128 ctv) (as_euint128 0))) fa.owner
      ∈ (transfer_cvct fa ta fk tk ctv rlen).2 ∧
    (4 ≤ rlen →
      Ev.allowGrant (e_add ta.balance
          (e_select (e_ge fa.balance (new_euint128 ctv))
            (new_euint128 ctv) (as_euint128 0))) ta.owner
        ∈ (transfer_cvct fa ta fk tk ctv rlen).2) := by
  have ha : ¬ (rlen < 0 + 2) := by omega
  refine ⟨?_, ?_, ?_, ?_⟩
  · simp [deposit_and_mint, call_allow_from_remaining, h2, ha]
  · simp [burn_and_withdraw, call_allow_from_remaining, h2, ha]
  · by_cases hr4 : 4 ≤ rlen
    · have hb : ¬ (rlen < 2 + 2) := by omega
      simp [transfer_cvct, call_allow_from_remaining, hne, h2, ha, hr4, hb]
    · simp [transfer_cvct, call_allow_from_remaining, hne, h2, ha, hr4]
  · intro hr4
    have hb : ¬ (rlen < 2 + 2) := by omega
    simp [transfer_cvct, call_allow_from_remaining, hne, h2, ha, hr4, hb]

/-- Witness for the amended `C5`: with 4 remaining accounts supplied, a
concrete deposit grants the new balance handle 17 to owner 5. -/
theorem C5_witness :
    (2 ≤ 4 ∧ (5 : Pubkey) ≠ 6) ∧
    Ev.allowGrant 17 5 ∈ (deposit_and_mint exMint exVault exAcct 7 true 4).2 :=
  ⟨by decide,
   (C5_grant_issued_when_accounts_supplied exMint exVault exAcct exAcct
     exAcct2 7 4 5 6 4 (by decide) (by decide)).1⟩

end CvctPayroll

/-- Truncating (Rust `i64 /`) and flooring division agree on positivity, and
agree exactly whenever the quotient is positive. -/
theorem tdiv_fdiv_pos_agree (a b : Int) (hb : b ≠ 0) :
    (0 < a.tdiv b ↔ 0 < a.fdiv b) ∧ (0 < a.tdiv b → a.tdiv b = a.fdiv b) := by
  cases a with
  | ofNat m =>
    cases b with
    | ofNat n =>
      have h2 : Int.fdiv (Int.ofNat m) (Int.ofNat n) = Int.ofNat (m / n) := by
        cases m with
        | zero => simp [Int.fdiv]
        | succ k => rfl
      have h1 : Int.tdiv (Int.ofNat m) (Int.ofNat n) = Int.ofNat (m / n) := rfl
      rw [h1, h2]
      exact ⟨Iff.rfl, fun _ => rfl⟩
    | negSucc n =>
      have h1 : Int.tdiv (Int.ofNat m) (Int.negSucc n)
          = -Int.ofNat (m / (n + 1)) := rfl
      have hle1 : ¬ 0 < Int.tdiv (Int.ofNat m) (Int.negSucc n) := by
        rw [h1]; exact not_lt.mpr (neg_nonpos.mpr (Int.ofNat_nonneg _))
      have hle2 : ¬ 0 < Int.fdiv (Int.ofNat m) (Int.negSucc n) := by
        cases m with
        | zero => simp [Int.fdiv]
        | succ k =>
          have hx : Int.fdiv (Int.ofNat (k + 1)) (Int.negSucc n)
              = Int.negSucc (k / (n + 1)) := rfl
          rw [hx]; exact not_lt.mpr (le_of_lt (Int.negSucc_lt_zero _))
      exact ⟨iff_of_false hle1 hle2, fun h => absurd h hle1⟩
  | negSucc m =>
    cases b with
    | ofNat n =>
      cases n with
      | zero => exact absurd rfl hb
      | succ j =>
        have h1 : Int.tdiv (Int.negSucc m) (Int.ofNat (j + 1))
            = -Int.ofNat ((m + 1) / (j + 1)) := rfl
        have h2 : Int.fdiv (Int.negSucc m) (Int.ofNat (j + 1))
            = Int.negSucc (m / (j + 1)) := rfl
        have hle1 : ¬ 0 < Int.tdiv (Int.negSucc m) (Int.ofNat (j + 1)) := by
          rw [h1]; exact not_lt.mpr (neg_nonpos.mpr (Int.ofNat_nonneg _))
        have hle2 : ¬ 0 < Int.fdiv (Int.negSucc m) (Int.ofNat (j + 1)) := by
          rw [h2]; exact not_lt.mpr (le_of_lt (Int.negSucc_lt_zero _))
        exact ⟨iff_of_false hle1 hle2, fun h => absurd h hle1⟩
    | negSucc n =>
      have h1 : Int.tdiv (Int.negSucc m) (Int.negSucc n)
          = Int.ofNat ((m + 1) / (n + 1)) := rfl
      have h2 : Int.fdiv (Int.negSucc m) (Int.negSucc n)
          = Int.ofNat ((m + 1) / (n + 1)) := rfl
      rw [h1, h2]
      exact ⟨Iff.rfl, fun _ => rfl⟩

namespace CvctPayroll

/-- The periods-owed value computed by `run_payroll_for_member` (step 4):
1 on first payment, otherwise the truncating i64 division of the elapsed
time by the interval. -/
def periods_owed_code (payroll : Payroll) (member : PayrollMember)
    (now : Int) : Int :=
  if member.last_paid = 0 then 1
  else (now - member.last_paid).tdiv payroll.interval

/-- The amount moved by `run_payroll_for_member` (step 6): the u64 product
of the rate and the periods owed. -/
def amount_owed_code (payroll : Payroll) (member : PayrollMember)
    (now : Int) : Nat :=
  member.rate * (periods_owed_code payroll member now).toNat % U64

/-- Characterization of `run_payroll_for_member` for an active payroll and
active member, in terms of the code's truncating division, away from the
division crash cases. -/
theorem run_payroll_for_member_characterization (payroll : Payroll)
    (member : PayrollMember) (org_treasury member_cvct_account : CvctAccount)
    (now : Int) (hact : payroll.active = true) (hmact : member.active = true)
    (hint : payroll.interval ≠ 0)
    (hedge : ¬(now - member.last_paid = -(2 ^ 63) ∧
      payroll.interval = -1)) :
    (periods_owed_code payroll member now ≤ 0 →
      run_payroll_for_member payroll member org_treasury
        member_cvct_account now = .err .PayrollNotDue) ∧
    (0 < periods_owed_code payroll member now →
      (org_treasury.balance < amount_owed_code payroll member now →
        run_payroll_for_member payroll member org_treasury
          member_cvct_account now = .err .InsufficientFunds) ∧
      (amount_owed_code payroll member now ≤ org_treasury.balance →
        run_payroll_for_member payroll member org_treasury
          member_cvct_account now
        = .ok { org_treasury with balance :=
                  org_treasury.balance - amount_owed_code payroll member now }
            { member_cvct_account with
              balance := (member_cvct_account.balance
                + amount_owed_code payroll member now) % U128 }
            { member with last_paid := now })) := by
  have hcond : ¬(payroll.interval = 0 ∨
      (now - member.last_paid = -(2 ^ 63) ∧ payroll.interval = -1)) := by
    rintro (h | h)
    · exact hint h
    · exact hedge h
  have hrun : run_payroll_for_member payroll member org_treasury
      member_cvct_account now
      = if periods_owed_code payroll member now ≤ 0 then
          .err .PayrollNotDue
        else if org_treasury.balance < amount_owed_code payroll member now
          then .err .InsufficientFunds
        else .ok { org_treasury with balance :=
              org_treasury.balance - amount_owed_code payroll member now }
          { member_cvct_account with
            balance := (member_cvct_account.balance
              + amount_owed_code payroll member now) % U128 }
          { member with last_paid := now } := by
    unfold run_payroll_for_member
    by_cases hlp : member.last_paid = 0
    · have hper : periods_owed_code payroll member now = 1 := by
        simp [periods_owed_code, hlp]
      simp [hact, hmact, hlp, hper, amount_owed_code]
    · have hper : periods_owed_code payroll member now
          = (now - member.last_paid).tdiv payroll.interval := by
        simp [periods_owed_code, hlp]
      simp only [hact, hmact, Bool.true_eq_false, if_false, hlp]
      rw [if_neg hcond]
      simp [hper, amount_owed_code]
  refine ⟨fun hle => ?_, fun hpos => ⟨fun hlt => ?_, fun hge => ?_⟩⟩
  · rw [hrun, if_pos hle]
  · rw [hrun, if_neg (not_le.mpr hpos), if_pos hlt]
  · rw [hrun, if_neg (not_le.mpr hpos), if_neg (not_lt.mpr hge)]

end CvctPayroll

namespace CvctPayroll

/-- Sample payroll: interval 86400, active. -/
def exPayroll : Payroll :=
  { org := 0, interval := 86400, last_run := 0, active := true }

/-- Sample member: rate 100, never paid, active. -/
def exMember : PayrollMember :=
  { payroll := 0, cvct_wallet := 0, rate := 100, last_paid := 0,
    active := true }

/-- Sample treasury account with balance 1000. -/
def exTreasury : CvctAccount :=
  { owner := 0, cvct_mint := 3, balance := 1000 }

/-- Sample member wallet account with balance 0. -/
def exMemberAcct : CvctAccount :=
  { owner := 7, cvct_mint := 3, balance := 0 }

/-- `C2`: for an active payroll and active member (with a nonzero interval,
so the unguarded division does not crash), the periods owed are 1 on a first
payment and otherwise `floor((now - last_paid) / interval)`; a non-positive
value rejects with `PayrollNotDue`; an insufficient treasury rejects with
`InsufficientFunds`; otherwise `rate * periods_owed` moves from the treasury
balance to the member balance and `last_paid` is set to `now`.  In
particular, with rate 100, interval 86400, `last_paid = 0`: running at
`t = 1000` pays 100 and sets `last_paid = 1000`; running again at `t = 1000`
rejects with `PayrollNotDue`; running at `t = 1000 + 2·86400` pays 200. -/
theorem C2_run_payroll_functional_spec (payroll : Payroll)
    (member : PayrollMember) (org_treasury member_cvct_account : CvctAccount)
    (now : Int) (hact : payroll.active = true) (hmact : member.active = true)
    (hint : payroll.interval ≠ 0)
    (hedge : ¬(now - member.last_paid = -(2 ^ 63) ∧
      payroll.interval = -1)) :
    (let P : Int := if member.last_paid = 0 then 1
      else (now - member.last_paid).fdiv payroll.interval
    (P ≤ 0 → run_payroll_for_member payroll member org_treasury
        member_cvct_account now = .err .PayrollNotDue) ∧
    (0 < P → member.rate * P.toNat < U64 →
      (org_treasury.balance < member.rate * P.toNat →
        run_payroll_for_member payroll member org_treasury
          member_cvct_account now = .err .InsufficientFunds) ∧
      (member.rate * P.toNat ≤ org_treasury.balance →
        run_payroll_for_member payroll member org_treasury
          member_cvct_account now
        = .ok { org_treasury with
                balance := org_treasury.balance - member.rate * P.toNat }
            { member_cvct_account with
              balance := (member_cvct_account.balance
                + member.rate * P.toNat) % U128 }
            { member with last_paid := now }))) ∧
    (run_payroll_for_member exPayroll exMember exTreasury exMemberAcct 1000
      = .ok { exTreasury with balance := 900 }
          { exMemberAcct with balance := 100 }
          { exMember with last_paid := 1000 } ∧
    run_payroll_for_member exPayroll { exMember with last_paid := 1000 }
        { exTreasury with balance := 900 } { exMemberAcct with balance := 100 }
        1000
      = .err .PayrollNotDue ∧
    run_payroll_for_member exPayroll { exMember with last_paid := 1000 }
        { exTreasury with balance := 900 } { exMemberAcct with balance := 100 }
        (1000 + 2 * 86400)
      = .ok { exTreasury with balance := 700 }
          { exMemberAcct with balance := 300 }
          { exMember with last_paid := 1000 + 2 * 86400 }) := by
  constructor
  · intro P
    obtain ⟨hchar1, hchar2⟩ := run_payroll_for_member_characterization
      payroll member org_treasury member_cvct_account now hact hmact hint
      hedge
    have hEq : (P ≤ 0 ↔ periods_owed_code payroll member now ≤ 0) ∧
        (0 < P → periods_owed_code payroll member now = P) := by
      by_cases hlp : member.last_paid = 0
      · have hP : P = 1 := if_pos hlp
        have hpc : periods_owed_code payroll member now = 1 := if_pos hlp
        rw [hP, hpc]
        exact ⟨Iff.rfl, fun _ => rfl⟩
      · have hP : P = (now - member.last_paid).fdiv payroll.interval :=
          if_neg hlp
        have hpc : periods_owed_code payroll member now
            = (now - member.last_paid).tdiv payroll.interval := if_neg hlp
        obtain ⟨hbr1, hbr2⟩ := tdiv_fdiv_pos_agree (now - member.last_paid)
          payroll.interval hint
        rw [hP, hpc]
        exact ⟨by omega, fun hpos => hbr2 (hbr1.mpr hpos)⟩
    obtain ⟨hEq1, hEq2⟩ := hEq
    constructor
    · intro hle
      exact hchar1 (hEq1.mp hle)
    · intro hpos hU
      have hpcP : periods_owed_code payroll member now = P := hEq2 hpos
      have hpcpos : 0 < periods_owed_code payroll member now := by
        rw [hpcP]; exact hpos
      have hamt : amount_owed_code payroll member now
          = member.rate * P.toNat := by
        unfold amount_owed_code
        rw [hpcP]
        exact Nat.mod_eq_of_lt hU
      obtain ⟨hc21, hc22⟩ := hchar2 hpcpos
      rw [hamt] at hc21 hc22
      exact ⟨hc21, hc22⟩
  · exact ⟨by decide, by decide, by decide⟩

/-- Witness for `C2`: the first scenario run derived from the general part
of the theorem at the concrete payroll. -/
theorem C2_witness :
    run_payroll_for_member exPayroll exMember exTreasury exMemberAcct 1000
      = .ok { exTreasury with balance := 900 }
          { exMemberAcct with balance := 100 }
          { exMember with last_paid := 1000 } := by
  have h := C2_run_payroll_functional_spec exPayroll exMember exTreasury
    exMemberAcct 1000 (by decide) (by decide) (by decide) (by decide)
  exact (h.1.2 (by decide) (by decide)).2 (by decide)

end CvctPayroll

theorem e_add_zero {a : Nat} (h : a < U128) : e_add a 0 = a := by
  unfold e_add
  rw [Nat.add_zero, Nat.mod_eq_of_lt h]

namespace Cvct

/-- Any verification failure — invalid signature, or a job id that does not
name a still-pending queued job (absent or already committed) — makes
`verify_output` reject. -/
theorem verify_output_fails {α : Type} (env : CompEnv)
    (out : SignedComputationOutputs α)
    (h : out.sig_valid = false ∨ env.jobs out.job_id ≠ .queued) :
    verify_output env out = .error () := by
  unfold verify_output
  by_cases hs : out.sig_valid = false
  · rw [if_pos hs]
  · rw [if_neg hs]
    have h2 : env.jobs out.job_id ≠ .queued := by
      rcases h with h | h
      · exact absurd h hs
      · exact h
    cases hj : env.jobs out.job_id with
    | queued => exact absurd hj h2
    | absent => rfl
    | verified => rfl

/-- A valid signature over a still-queued job releases the outputs and
consumes the job one-shot. -/
theorem verify_output_ok {α : Type} (env : CompEnv)
    (out : SignedComputationOutputs α) (hs : out.sig_valid = true)
    (hq : env.jobs out.job_id = .queued) :
    verify_output env out = .ok (out.value, consume env out.job_id) := by
  unfold verify_output
  rw [if_neg (by simp [hs]), hq]

/-- Consuming a job marks exactly that job id as verified. -/
theorem consume_jobs_self (env : CompEnv) (j : Nat) :
    (consume env j).jobs j = .verified := by
  simp [consume]

/-- Sample job table: job 7 is queued, nothing else exists. -/
def exEnv : CompEnv :=
  ⟨fun j => if j = 7 then .queued else .absent⟩

/-- Sample asynchronous-program mint record. -/
def exAMint : CvctMint :=
  { authority := 1, backing_mint := 2, authority_enc_pubkey := 31,
    total_supply := 0, total_supply_nonce := 0, decimals := 6 }

/-- Sample asynchronous-program vault record. -/
def exAVault : Vault :=
  { cvct_mint := 3, backing_mint := 2, backing_token_account := 4,
    total_locked := 0, total_locked_nonce := 0 }

/-- Sample asynchronous-program account record. -/
def exAAcct : CvctAccount :=
  { owner := 5, cvct_mint := 3, owner_enc_pubkey := 32, balance := 0,
    balance_nonce := 0 }

/-- Sample signed output payload for `init_mint_state` bound to job 7. -/
def exMintOut : SignedComputationOutputs (EncOutput × EncOutput) :=
  ⟨7, true, (⟨11, 21⟩, ⟨12, 22⟩)⟩

/-- `C6`: in every callback handler, verification is all-or-nothing: a bad
signature, a job id not naming a pending queued job, or an already-committed
job makes the handler reject with `AbortedComputation` (the whole instruction
fails, so no record field is written); only a successfully verified callback
overwrites the designated encrypted fields and their nonces, consuming the
job one-shot; and a second callback payload for an already-committed job id
is rejected. -/
theorem C6_callback_verification_all_or_nothing (env : CompEnv)
    (cvct_mint : CvctMint) (vault : Vault) (cvct_account : CvctAccount)
    (mout : SignedComputationOutputs (EncOutput × EncOutput))
    (aout : SignedComputationOutputs EncOutput)
    (dout : SignedComputationOutputs (EncOutput × EncOutput × EncOutput)) :
    ((mout.sig_valid = false ∨ env.jobs mout.job_id ≠ .queued) →
      init_mint_state_callback env cvct_mint vault mout
        = .error .AbortedComputation) ∧
    ((aout.sig_valid = false ∨ env.jobs aout.job_id ≠ .queued) →
      init_account_state_callback env cvct_account aout
        = .error .AbortedComputation) ∧
    ((dout.sig_valid = false ∨ env.jobs dout.job_id ≠ .queued) →
      deposit_and_mint_callback env cvct_account cvct_mint vault dout
        = .error .AbortedComputation) ∧
    (mout.sig_valid = true → env.jobs mout.job_id = .queued →
      init_mint_state_callback env cvct_mint vault mout
        = .ok (consume env mout.job_id,
            { cvct_mint with
              total_supply := mout.value.1.ciphertexts,
              total_supply_nonce := mout.value.1.nonce },
            { vault with
              total_locked := mout.value.2.ciphertexts,
              total_locked_nonce := mout.value.2.nonce })) ∧
    (aout.sig_valid = true → env.jobs aout.job_id = .queued →
      init_account_state_callback env cvct_account aout
        = .ok (consume env aout.job_id,
            { cvct_account with
              balance := aout.value.ciphertexts,
              balance_nonce := aout.value.nonce })) ∧
    (dout.sig_valid = true → env.jobs dout.job_id = .queued →
      deposit_and_mint_callback env cvct_account cvct_mint vault dout
        = .ok (consume env dout.job_id,
            { cvct_account with
              balance := dout.value.1.ciphertexts,
              balance_nonce := dout.value.1.nonce },
            { cvct_mint with
              total_supply := dout.value.2.1.ciphertexts,
              total_supply_nonce := dout.value.2.1.nonce },
            { vault with
              total_locked := dout.value.2.2.ciphertexts,
              total_locked_nonce := dout.value.2.2.nonce })) ∧
    (∀ mout2 : SignedComputationOutputs (EncOutput × EncOutput),
      mout2.job_id = mout.job_id →
      init_mint_state_callback (consume env mout.job_id) cvct_mint vault
          mout2 = .error .AbortedComputation) ∧
    (∀ aout2 : SignedComputationOutputs EncOutput,
      aout2.job_id = aout.job_id →
      init_account_state_callback (consume env aout.job_id) cvct_account
          aout2 = .error .AbortedComputation) ∧
    (∀ dout2 : SignedComputationOutputs (EncOutput × EncOutput × EncOutput),
      dout2.job_id = dout.job_id →
      deposit_and_mint_callback (consume env dout.job_id) cvct_account
          cvct_mint vault dout2 = .error .AbortedComputation) := by
  have hverified : ∀ (j : Nat) (j2 : Nat), j2 = j →
      (consume env j).jobs j2 ≠ JobStatus.queued := by
    intro j j2 hj
    rw [hj, consume_jobs_self]
    simp
  refine ⟨fun h => ?_, fun h => ?_, fun h => ?_, fun hs hq => ?_,
    fun hs hq => ?_, fun hs hq => ?_, fun mout2 hj => ?_,
    fun aout2 hj => ?_, fun dout2 hj => ?_⟩
  · unfold init_mint_state_callback
    rw [verify_output_fails env mout h]
  · unfold init_account_state_callback
    rw [verify_output_fails env aout h]
  · unfold deposit_and_mint_callback
    rw [verify_output_fails env dout h]
  · unfold init_mint_state_callback
    rw [verify_output_ok env mout hs hq]
  · unfold init_account_state_callback
    rw [verify_output_ok env aout hs hq]
  · unfold deposit_and_mint_callback
    rw [verify_output_ok env dout hs hq]
  · unfold init_mint_state_callback
    rw [verify_output_fails _ mout2 (.inr (hverified _ _ hj))]
  · unfold init_account_state_callback
    rw [verify_output_fails _ aout2 (.inr (hverified _ _ hj))]
  · unfold deposit_and_mint_callback
    rw [verify_output_fails _ dout2 (.inr (hverified _ _ hj))]

/-- Witness for `C6`: a verified payload bound to queued job 7 commits the
returned ciphertexts and nonces into the mint and vault records. -/
theorem C6_witness :
    init_mint_state_callback exEnv exAMint exAVault exMintOut
      = .ok (consume exEnv 7,
          { exAMint with total_supply := 11, total_supply_nonce := 21 },
          { exAVault with total_locked := 12, total_locked_nonce := 22 }) :=
  (C6_callback_verification_all_or_nothing exEnv exAMint exAVault exAAcct
      exMintOut ⟨7, true, ⟨11, 21⟩⟩ ⟨7, true, (⟨11, 21⟩, ⟨12, 22⟩, ⟨13, 23⟩)⟩
    ).2.2.2.1 (by decide) (by decide)

end Cvct

namespace CvctPayroll

/-- `C7`: in both deposit variants the backing-asset custody transfer is
strictly ordered before every encrypted mutation: in the synchronous variant
a failed custody transfer aborts the instruction before any encrypted call
is issued (empty call list, error result, no state returned), and on success
the SPL transfer is the first external call; in the asynchronous variant
(for a nonzero amount) a failed custody transfer aborts with nothing queued
and no calls, and on success the call list is exactly the SPL transfer
followed by the computation queuing. -/
theorem C7_custody_transfer_precedes_encrypted_mutation (cvct_mint : CvctMint)
    (vault : Vault) (cvct_account : CvctAccount) (amount remaining_len : Nat)
    (env : Cvct.CompEnv) (computation_offset : Nat) :
    deposit_and_mint cvct_mint vault cvct_account amount false remaining_len
      = (.error .externalCpi, []) ∧
    (deposit_and_mint cvct_mint vault cvct_account amount true
        remaining_len).2.head? = some (.splTransfer amount) ∧
    (amount ≠ 0 →
      Cvct.deposit_and_mint env computation_offset amount false
        = (.error .externalCpi, [])) ∧
    (amount ≠ 0 →
      (Cvct.deposit_and_mint env computation_offset amount true).2
        = [.splTransfer amount, .queueComputation computation_offset]) := by
  refine ⟨rfl, ?_, fun h => ?_, fun h => ?_⟩
  · unfold deposit_and_mint
    simp only [Bool.true_eq_false, if_false]
    split
    · split
      · rfl
      · rfl
    · rfl
  · unfold Cvct.deposit_and_mint
    rw [if_neg h]
    rfl
  · unfold Cvct.deposit_and_mint
    rw [if_neg h]
    rfl

/-- Witness for `C7`: a concrete asynchronous deposit of 5 issues exactly
the custody transfer followed by the queuing of job 9. -/
theorem C7_witness :
    (Cvct.deposit_and_mint Cvct.exEnv 9 5 true).2
      = [.splTransfer 5, .queueComputation 9] :=
  (C7_custody_transfer_precedes_encrypted_mutation exMint exVault exAcct 5 2
      Cvct.exEnv 9).2.2.2 (by decide)

/-- `C9`: `create_payroll` stores any i64 interval — zero or negative —
without validation, and running the payroll with `interval = 0` for a member
with `last_paid ≠ 0` reaches the unguarded division `time_elapsed /
payroll.interval` with divisor zero, which panics in Rust (modelled as
`crash`) instead of returning an error. -/
theorem C9_interval_zero_division_crash :
    (∀ (org : Pubkey) (interval : Int),
      create_payroll org interval
        = { org := org, interval := interval, last_run := 0,
            active := true }) ∧
    run_payroll_for_member (create_payroll 0 0)
        { exMember with last_paid := 5 } exTreasury exMemberAcct 1000
      = .crash :=
  ⟨fun _ _ => rfl, by decide⟩

/-- `C10`: the synchronous `deposit_and_mint` performs no zero-amount check:
with `amount = 0` it succeeds, transferring zero backing tokens (the SPL
transfer of 0 is still its first external call) and adding encrypted zero to
balance, supply and locked — leaving all three decrypted values unchanged —
whereas the asynchronous `deposit_and_mint` rejects `amount = 0` with
`ZeroAmount` before any custody transfer or queuing, with no external call
at all, whatever the custody outcome would have been. -/
theorem C10_zero_amount_sync_accepts_async_rejects (cvct_mint : CvctMint)
    (vault : Vault) (cvct_account : CvctAccount) (remaining_len : Nat)
    (env : Cvct.CompEnv) (computation_offset : Nat) (splTransferOk : Bool)
    (hb : cvct_account.balance < U128) (hs : cvct_mint.total_supply < U128)
    (hl : vault.total_locked < U128) :
    (deposit_and_mint cvct_mint vault cvct_account 0 true remaining_len).1
      = .ok (cvct_mint, vault, cvct_account) ∧
    (deposit_and_mint cvct_mint vault cvct_account 0 true
        remaining_len).2.head? = some (.splTransfer 0) ∧
    Cvct.deposit_and_mint env computation_offset 0 splTransferOk
      = (.error (.code .ZeroAmount), []) := by
  have hzero : as_euint128 0 = 0 := by simp [as_euint128]
  refine ⟨?_, ?_, rfl⟩
  · unfold deposit_and_mint
    simp only [hzero, Bool.true_eq_false, if_false]
    rw [e_add_zero hb, e_add_zero hs, e_add_zero hl]
    split
    · next hr =>
      have hca : call_allow_from_remaining remaining_len
          cvct_account.balance cvct_account.owner 0
          = .ok [Ev.allowGrant cvct_account.balance cvct_account.owner] := by
        unfold call_allow_from_remaining
        rw [if_neg (by omega)]
      rw [hca]
    · rfl
  · unfold deposit_and_mint
    simp only [Bool.true_eq_false, if_false]
    split
    · split
      · rfl
      · rfl
    · rfl

/-- Witness for `C10`: at concrete records, a zero-amount synchronous
deposit succeeds without changing any decrypted value. -/
theorem C10_witness :
    (deposit_and_mint exMint exVault exAcct 0 true 2).1
      = .ok (exMint, exVault, exAcct) :=
  (C10_zero_amount_sync_accepts_async_rejects exMint exVault exAcct 2
      Cvct.exEnv 9 true (by decide) (by decide) (by decide)).1

end CvctPayroll
